import Mathlib

/-!
Verification of the membership-inference tutorial notebooks
(`attack_membership_inference.ipynb`, `label_only_membership_inference.ipynb`).

The notebooks' own code (the precision/recall helper, the accuracy formulas,
the `NurseryDataset` wrapper) is embedded directly.  The attack classes they
invoke (`MembershipInferenceBlackBoxRuleBased`, `LabelOnlyDecisionBoundary`)
live in the external library and are modelled from the specification, as
flagged in the doc comment of each such definition.
-/

namespace MembershipInference

/-- `calc_precision_recall` from `attack_membership_inference.ipynb` (cell 4).
The Python loop runs `i` over `range (len predicted)`, counting
`score` (predicted = actual = positive_value), `num_positive_predicted`
(predicted = positive_value) and `num_positive_actual` (actual =
positive_value); the pair iteration is rendered with `zip`, which visits
exactly the indices the loop does when `actual` is at least as long as
`predicted`.  When `actual` is shorter, the access `actual[i]` raises
`IndexError`, modelled as `none`.  If no sample is predicted positive,
precision is defined as 1; if no sample is actually positive, recall is
defined as 1; otherwise they are the usual ratios. -/
def calc_precision_recall (predicted actual : List ℚ) (positive_value : ℚ) :
    Option (ℚ × ℚ) :=
  if predicted.length ≤ actual.length then
    let pairs := predicted.zip actual
    let score :=
      (pairs.filter fun pa => decide (pa.1 = pa.2 ∧ pa.1 = positive_value)).length
    let num_positive_predicted :=
      (pairs.filter fun pa => decide (pa.1 = positive_value)).length
    let num_positive_actual :=
      (pairs.filter fun pa => decide (pa.2 = positive_value)).length
    let precisionOut : ℚ :=
      if num_positive_predicted = 0 then 1
      else (score : ℚ) / (num_positive_predicted : ℚ)
    let recallOut : ℚ :=
      if num_positive_actual = 0 then 1
      else (score : ℚ) / (num_positive_actual : ℚ)
    some (precisionOut, recallOut)
  else
    none

/-- Explicit form of `calc_precision_recall` when `actual` is long enough for
every index the loop visits. -/
lemma calc_precision_recall_eq_of_le (predicted actual : List ℚ) (pv : ℚ)
    (h : predicted.length ≤ actual.length) :
    calc_precision_recall predicted actual pv =
      some
        (if ((predicted.zip actual).filter fun pa =>
              decide (pa.1 = pv)).length = 0 then 1
         else (((predicted.zip actual).filter fun pa =>
              decide (pa.1 = pa.2 ∧ pa.1 = pv)).length : ℚ) /
            (((predicted.zip actual).filter fun pa =>
              decide (pa.1 = pv)).length : ℚ),
         if ((predicted.zip actual).filter fun pa =>
              decide (pa.2 = pv)).length = 0 then 1
         else (((predicted.zip actual).filter fun pa =>
              decide (pa.1 = pa.2 ∧ pa.1 = pv)).length : ℚ) /
            (((predicted.zip actual).filter fun pa =>
              decide (pa.2 = pv)).length : ℚ)) := by
  unfold calc_precision_recall
  rw [if_pos h]

/-- The jointly-positive count never exceeds the predicted-positive count. -/
lemma score_le_num_positive_predicted (pairs : List (ℚ × ℚ)) (pv : ℚ) :
    (pairs.filter fun pa => decide (pa.1 = pa.2 ∧ pa.1 = pv)).length ≤
      (pairs.filter fun pa => decide (pa.1 = pv)).length := by
  refine List.Sublist.length_le (List.monotone_filter_right pairs ?_)
  intro pa h
  simp only [decide_eq_true_eq] at h ⊢
  exact h.2

/-- The jointly-positive count never exceeds the actually-positive count. -/
lemma score_le_num_positive_actual (pairs : List (ℚ × ℚ)) (pv : ℚ) :
    (pairs.filter fun pa => decide (pa.1 = pa.2 ∧ pa.1 = pv)).length ≤
      (pairs.filter fun pa => decide (pa.2 = pv)).length := by
  refine List.Sublist.length_le (List.monotone_filter_right pairs ?_)
  intro pa h
  simp only [decide_eq_true_eq] at h ⊢
  exact h.1 ▸ h.2

/-- Claim C3: for every pair of equal-length prediction and ground-truth
sequences (in particular an all-members or all-non-members ground truth),
`calc_precision_recall` never hits a division error: it returns a result, and
when zero samples are predicted positive the precision is 1, and when zero
samples are actually positive the recall is 1. -/
theorem calc_precision_recall_no_division_error
    (predicted actual : List ℚ) (pv : ℚ)
    (hlen : predicted.length = actual.length) :
    ∃ p r, calc_precision_recall predicted actual pv = some (p, r) ∧
      (((predicted.zip actual).filter fun pa => decide (pa.1 = pv)).length = 0 →
        p = 1) ∧
      (((predicted.zip actual).filter fun pa => decide (pa.2 = pv)).length = 0 →
        r = 1) := by
  rw [calc_precision_recall_eq_of_le predicted actual pv (le_of_eq hlen)]
  refine ⟨_, _, rfl, fun h => ?_, fun h => ?_⟩
  · rw [if_pos h]
  · rw [if_pos h]

/-- Witness for C3 on a concrete all-non-members ground truth: both sequences
are `[0, 0]`, no sample is predicted or actually positive, and the call
returns precision 1 and recall 1 instead of dividing by zero. -/
theorem calc_precision_recall_no_division_error_witness :
    calc_precision_recall [0, 0] [0, 0] 1 = some (1, 1) := by
  obtain ⟨p, r, hsome, hp, hr⟩ :=
    calc_precision_recall_no_division_error [0, 0] [0, 0] 1 (by decide)
  rw [hsome, hp (by decide), hr (by decide)]

/-- Claim C9: for every pair of equal-length sequences, `calc_precision_recall`
returns a pair `(precision, recall)` with both components in `[0, 1]`, because
the jointly-positive count never exceeds the predicted-positive count nor the
actually-positive count. -/
theorem calc_precision_recall_bounds (predicted actual : List ℚ) (pv : ℚ)
    (hlen : predicted.length = actual.length) :
    ∃ p r, calc_precision_recall predicted actual pv = some (p, r) ∧
      0 ≤ p ∧ p ≤ 1 ∧ 0 ≤ r ∧ r ≤ 1 := by
  rw [calc_precision_recall_eq_of_le predicted actual pv (le_of_eq hlen)]
  refine ⟨_, _, rfl, ?_, ?_, ?_, ?_⟩
  · split
    · exact zero_le_one
    · positivity
  · split
    · exact le_refl 1
    · rename_i h
      rw [div_le_one (by exact_mod_cast Nat.pos_of_ne_zero h)]
      exact_mod_cast score_le_num_positive_predicted _ pv
  · split
    · exact zero_le_one
    · positivity
  · split
    · exact le_refl 1
    · rename_i h
      rw [div_le_one (by exact_mod_cast Nat.pos_of_ne_zero h)]
      exact_mod_cast score_le_num_positive_actual _ pv

/-- Witness for C9 at a concrete input `predicted = [1, 0, 1]`,
`actual = [1, 1, 0]`. -/
theorem calc_precision_recall_bounds_witness :
    ∃ p r, calc_precision_recall [1, 0, 1] [1, 1, 0] 1 = some (p, r) ∧
      0 ≤ p ∧ p ≤ 1 ∧ 0 ≤ r ∧ r ≤ 1 :=
  calc_precision_recall_bounds [1, 0, 1] [1, 1, 0] 1 (by decide)

/-- Modelled from the spec: the Rule-Based Attack Strategy (§4.2), used in the
notebook as `MembershipInferenceBlackBoxRuleBased(art_classifier)` but
implemented in the external library.  It holds only the Target Model Adapter,
here abstracted as the deterministic predicted-label function `predict`. -/
structure MembershipInferenceBlackBoxRuleBased (α : Type) where
  predict : α → ℤ

/-- Modelled from the spec: `infer(samples, true_labels) -> membership
predictions` of the Rule-Based Attack Strategy (§4.2): "predicts member iff
the adapter's predicted label equals the true label.  Stateless, no
calibration step."  A membership prediction is 1 for member, 0 for
non-member, as in the notebook's `inferred_train` / `inferred_test` arrays. -/
def MembershipInferenceBlackBoxRuleBased.infer {α : Type}
    (attack : MembershipInferenceBlackBoxRuleBased α)
    (samples : List α) (true_labels : List ℤ) : List ℚ :=
  List.zipWith (fun s l => if attack.predict s = l then (1 : ℚ) else 0)
    samples true_labels

lemma length_rule_based_infer {α : Type}
    (attack : MembershipInferenceBlackBoxRuleBased α)
    (samples : List α) (labels : List ℤ) :
    (attack.infer samples labels).length = min samples.length labels.length := by
  simp [MembershipInferenceBlackBoxRuleBased.infer]

/-- Claim C1: the rule-based `infer` returns "member" (1) for a sample if and
only if the model's predicted label for that sample equals the sample's true
label, with exact equality and no tolerance. -/
theorem rule_based_infer_member_iff {α : Type}
    (attack : MembershipInferenceBlackBoxRuleBased α)
    (samples : List α) (labels : List ℤ) (i : Nat)
    (hs : i < samples.length) (hl : i < labels.length) :
    (attack.infer samples labels).get
        ⟨i, by rw [length_rule_based_infer]; exact lt_min hs hl⟩ = 1 ↔
      attack.predict (samples.get ⟨i, hs⟩) = labels.get ⟨i, hl⟩ := by
  have h1 : (attack.infer samples labels).get
        ⟨i, by rw [length_rule_based_infer]; exact lt_min hs hl⟩ =
      if attack.predict (samples.get ⟨i, hs⟩) = labels.get ⟨i, hl⟩ then (1 : ℚ)
      else 0 := by
    simp [MembershipInferenceBlackBoxRuleBased.infer, List.get_eq_getElem,
      List.getElem_zipWith]
  rw [h1]
  constructor
  · intro h
    by_contra hne
    rw [if_neg hne] at h
    norm_num at h
  · intro h
    rw [if_pos h]

/-- Witness for C1: a two-sample batch where the model is right on the first
sample (label 3) and wrong on the second (true label 7, predicted 5). -/
theorem rule_based_infer_member_iff_witness :
    ((MembershipInferenceBlackBoxRuleBased.mk (fun n : ℤ => n - 2)).infer
        [5, 7] [3, 7]).get ⟨0, by decide⟩ = 1 ↔ (5 : ℤ) - 2 = 3 :=
  rule_based_infer_member_iff
    (MembershipInferenceBlackBoxRuleBased.mk (fun n : ℤ => n - 2))
    [5, 7] [3, 7] 0 (by decide) (by decide)

/-- `train_acc = np.sum(inferred_train) / len(inferred_train)` from
`attack_membership_inference.ipynb` (cell 3). -/
def train_acc (inferred : List ℚ) : ℚ :=
  inferred.sum / (inferred.length : ℚ)

/-- `test_acc = 1 - (np.sum(inferred_test) / len(inferred_test))` from
`attack_membership_inference.ipynb` (cell 3). -/
def test_acc (inferred : List ℚ) : ℚ :=
  1 - inferred.sum / (inferred.length : ℚ)

/-- `acc = (train_acc * len(inferred_train) + test_acc * len(inferred_test)) /
(len(inferred_train) + len(inferred_test))` from
`attack_membership_inference.ipynb` (cell 3). -/
def acc (inferred_train inferred_test : List ℚ) : ℚ :=
  (train_acc inferred_train * (inferred_train.length : ℚ) +
      test_acc inferred_test * (inferred_test.length : ℚ)) /
    ((inferred_train.length : ℚ) + (inferred_test.length : ℚ))

/-- On a 0/1 list, the sum equals the number of ones. -/
lemma sum_eq_count_ones (l : List ℚ) (h01 : ∀ x ∈ l, x = 0 ∨ x = 1) :
    l.sum = ((l.filter fun x => decide (x = 1)).length : ℚ) := by
  induction l with
  | nil => simp
  | cons x xs ih =>
    have hx := h01 x (List.mem_cons_self x xs)
    have hxs := ih fun y hy => h01 y (List.mem_cons_of_mem x hy)
    rcases hx with h0 | h1
    · subst h0
      rw [List.sum_cons, List.filter_cons, if_neg (by norm_num), hxs, zero_add]
    · subst h1
      rw [List.sum_cons, List.filter_cons, if_pos (by norm_num), hxs,
        List.length_cons]
      push_cast
      ring

/-- On a 0/1 list, the zeros and the ones together exhaust the list. -/
lemma count_zeros_add_count_ones (l : List ℚ) (h01 : ∀ x ∈ l, x = 0 ∨ x = 1) :
    (l.filter fun x => decide (x = 0)).length +
      (l.filter fun x => decide (x = 1)).length = l.length := by
  induction l with
  | nil => simp
  | cons x xs ih =>
    have hx := h01 x (List.mem_cons_self x xs)
    have hxs := ih fun y hy => h01 y (List.mem_cons_of_mem x hy)
    rcases hx with h0 | h1
    · subst h0
      rw [List.filter_cons, List.filter_cons, if_pos (by norm_num),
        if_neg (by norm_num), List.length_cons, List.length_cons]
      omega
    · subst h1
      rw [List.filter_cons, List.filter_cons, if_neg (by norm_num),
        if_pos (by norm_num), List.length_cons, List.length_cons]
      omega

/-- Claim C8: for non-empty 0/1 membership-prediction vectors, the notebook's
weighted overall accuracy equals the direct ratio (number of 1s among the
train predictions plus number of 0s among the test predictions) over the
total number of predictions. -/
theorem weighted_acc_eq_direct_ratio (inferred_train inferred_test : List ℚ)
    (htr : inferred_train ≠ []) (hte : inferred_test ≠ [])
    (h01tr : ∀ x ∈ inferred_train, x = 0 ∨ x = 1)
    (h01te : ∀ x ∈ inferred_test, x = 0 ∨ x = 1) :
    acc inferred_train inferred_test =
      (((inferred_train.filter fun x => decide (x = 1)).length : ℚ) +
          ((inferred_test.filter fun x => decide (x = 0)).length : ℚ)) /
        ((inferred_train.length : ℚ) + (inferred_test.length : ℚ)) := by
  have ha : (inferred_train.length : ℚ) ≠ 0 := by
    exact_mod_cast (List.length_pos.mpr htr).ne'
  have hb : (inferred_test.length : ℚ) ≠ 0 := by
    exact_mod_cast (List.length_pos.mpr hte).ne'
  have hzero : ((inferred_test.length : ℚ)) - inferred_test.sum =
      ((inferred_test.filter fun x => decide (x = 0)).length : ℚ) := by
    rw [sum_eq_count_ones _ h01te]
    have h2 := count_zeros_add_count_ones inferred_test h01te
    have h3 := congrArg (fun n : ℕ => (n : ℚ)) h2
    push_cast at h3
    linarith
  rw [acc, train_acc, test_acc, div_mul_cancel₀ _ ha, sub_mul, one_mul,
    div_mul_cancel₀ _ hb, hzero, sum_eq_count_ones _ h01tr]

/-- Witness for C8 at concrete predictions `[1, 0]` and `[0, 1]`: the weighted
accuracy and the direct ratio both equal 1/2. -/
theorem weighted_acc_eq_direct_ratio_witness : acc [1, 0] [0, 1] = 1 / 2 := by
  rw [weighted_acc_eq_direct_ratio [1, 0] [0, 1] (by decide) (by decide)
    (by decide) (by decide)]
  norm_num [List.filter]

/-- `attack.infer` marks every sample 1 when the model is right on all of
them. -/
lemma rule_based_infer_all_correct {α : Type}
    (attack : MembershipInferenceBlackBoxRuleBased α)
    (xs : List α) (ys : List ℤ)
    (h : List.Forall₂ (fun s l => attack.predict s = l) xs ys) :
    attack.infer xs ys = List.replicate xs.length 1 := by
  induction h with
  | nil => rfl
  | @cons x y xs ys hxy _ ih =>
    simp only [MembershipInferenceBlackBoxRuleBased.infer, List.zipWith_cons_cons,
      List.length_cons, List.replicate_succ, if_pos hxy] at ih ⊢
    rw [ih]

/-- `attack.infer` marks every sample 0 when the model is wrong on all of
them. -/
lemma rule_based_infer_all_wrong {α : Type}
    (attack : MembershipInferenceBlackBoxRuleBased α)
    (xs : List α) (ys : List ℤ)
    (h : List.Forall₂ (fun s l => attack.predict s ≠ l) xs ys) :
    attack.infer xs ys = List.replicate xs.length 0 := by
  induction h with
  | nil => rfl
  | @cons x y xs ys hxy _ ih =>
    simp only [MembershipInferenceBlackBoxRuleBased.infer, List.zipWith_cons_cons,
      List.length_cons, List.replicate_succ, if_neg hxy] at ih ⊢
    rw [ih]

/-- Claim C6: on 10 member samples all predicted correctly and 10 non-member
samples all predicted incorrectly, the rule-based attack evaluated with the
notebook's formulas reports `train_acc = 1`, `test_acc = 1` and overall
`acc = 1`. -/
theorem rule_based_perfect_scenario {α : Type}
    (attack : MembershipInferenceBlackBoxRuleBased α)
    (x_train : List α) (y_train : List ℤ) (x_test : List α) (y_test : List ℤ)
    (htr : x_train.length = 10) (hte : x_test.length = 10)
    (hcorrect : List.Forall₂ (fun s l => attack.predict s = l) x_train y_train)
    (hwrong : List.Forall₂ (fun s l => attack.predict s ≠ l) x_test y_test) :
    train_acc (attack.infer x_train y_train) = 1 ∧
      test_acc (attack.infer x_test y_test) = 1 ∧
      acc (attack.infer x_train y_train) (attack.infer x_test y_test) = 1 := by
  rw [rule_based_infer_all_correct attack x_train y_train hcorrect,
    rule_based_infer_all_wrong attack x_test y_test hwrong, htr, hte]
  refine ⟨?_, ?_, ?_⟩
  · norm_num [train_acc, List.sum_replicate]
  · norm_num [test_acc, List.sum_replicate]
  · norm_num [acc, train_acc, test_acc, List.sum_replicate]

/-- Witness for C6: the identity model on labels 0..9 as members (all
correct) and ten samples with true label −1 as non-members (all wrong). -/
theorem rule_based_perfect_scenario_witness :
    train_acc ((MembershipInferenceBlackBoxRuleBased.mk (fun n : ℤ => n)).infer
        [0, 1, 2, 3, 4, 5, 6, 7, 8, 9] [0, 1, 2, 3, 4, 5, 6, 7, 8, 9]) = 1 ∧
      test_acc ((MembershipInferenceBlackBoxRuleBased.mk (fun n : ℤ => n)).infer
        [0, 1, 2, 3, 4, 5, 6, 7, 8, 9]
        [-1, -1, -1, -1, -1, -1, -1, -1, -1, -1]) = 1 ∧
      acc ((MembershipInferenceBlackBoxRuleBased.mk (fun n : ℤ => n)).infer
          [0, 1, 2, 3, 4, 5, 6, 7, 8, 9] [0, 1, 2, 3, 4, 5, 6, 7, 8, 9])
        ((MembershipInferenceBlackBoxRuleBased.mk (fun n : ℤ => n)).infer
          [0, 1, 2, 3, 4, 5, 6, 7, 8, 9]
          [-1, -1, -1, -1, -1, -1, -1, -1, -1, -1]) = 1 :=
  rule_based_perfect_scenario (MembershipInferenceBlackBoxRuleBased.mk
      (fun n : ℤ => n))
    [0, 1, 2, 3, 4, 5, 6, 7, 8, 9] [0, 1, 2, 3, 4, 5, 6, 7, 8, 9]
    [0, 1, 2, 3, 4, 5, 6, 7, 8, 9] [-1, -1, -1, -1, -1, -1, -1, -1, -1, -1]
    (by decide) (by decide) (by decide) (by decide)

/-- `NurseryDataset` from `attack_membership_inference.ipynb` (neural-network
section): `x` holds the stored feature rows, `y` the stored labels tensor. -/
structure NurseryDataset where
  x : List (List ℚ)
  y : List ℤ

/-- The int8 narrowing performed by `y.astype(np.int8)`: the value wraps
modulo 256 into the signed byte range [-128, 127] (numpy overflow
semantics), e.g. 300 becomes 44. -/
def int8Wrap (n : ℤ) : ℤ :=
  (n + 128) % 256 - 128

/-- `NurseryDataset.__init__(x, y=None)`: stores
`torch.from_numpy(x.astype(np.float64)).type(torch.FloatTensor)` — each
feature entry passes through a conversion to 32-bit floating point, a
representation change with no exact rational semantics, so it is abstracted
here as an arbitrary per-entry conversion `float32` applied at construction
time.  When `y` is given, `self.y =
torch.from_numpy(y.astype(np.int8)).type(torch.LongTensor)`: each label is
narrowed to int8, wrapping modulo 256 (`int8Wrap`); otherwise
`self.y = torch.zeros(x.shape[0])`, an all-zeros vector of the same length
as `x`. -/
def NurseryDataset.init (float32 : ℚ → ℚ) (x : List (List ℚ))
    (y : Option (List ℤ)) : NurseryDataset where
  x := x.map (List.map float32)
  y := match y with
    | some ys => ys.map int8Wrap
    | none => List.replicate x.length 0

/-- `NurseryDataset.__len__`. -/
def NurseryDataset.len (d : NurseryDataset) : Nat :=
  d.x.length

/-- `NurseryDataset.__getitem__(idx)`: raises `IndexError("Invalid Index")`
when `idx >= len(self.x)`, else returns `(self.x[idx], self.y[idx])`; the
access `self.y[idx]` itself raises an `IndexError` when `y` is too short. -/
def NurseryDataset.getitem (d : NurseryDataset) (idx : Nat) :
    Except String (List ℚ × ℤ) :=
  if d.x.length ≤ idx then Except.error "Invalid Index"
  else
    match d.x[idx]?, d.y[idx]? with
    | some xv, some yv => Except.ok (xv, yv)
    | _, _ => Except.error "index out of range"

/-- Counterexample to C10 as stated: a dataset constructed with the label 300
does not give 300 back from `__getitem__`; the constructor's
`y.astype(np.int8)` narrowing stores, and so returns, 44 (= 300 wrapped
modulo 256 into the signed byte range). -/
theorem nursery_getitem_spec_counterexample :
    (NurseryDataset.init (fun q : ℚ => q) [[1]] (some [300])).getitem 0 =
        Except.ok ([1], 44) ∧
      (NurseryDataset.init (fun q : ℚ => q) [[1]] (some [300])).getitem 0 ≠
        Except.ok ([1], 300) := by
  have h1 : (NurseryDataset.init (fun q : ℚ => q) [[1]]
      (some [300])).getitem 0 = Except.ok ([1], 44) := rfl
  refine ⟨h1, fun h => ?_⟩
  have h2 := Except.ok.inj (h1.symm.trans h)
  have h3 := congrArg Prod.snd h2
  norm_num at h3

/-- Claim C10 (amended): `NurseryDataset.__getitem__` raises `IndexError` for
every index not below the number of samples; for an in-range index it returns
the pair `(x[idx], y[idx])` as stored by the constructor — the features after
the per-entry float conversion, the label after the int8 narrowing (wrapping
modulo 256 into [-128, 127]) — where `y` is an all-zeros vector of the same
length as `x` when the dataset was constructed without labels. -/
theorem nursery_getitem_spec (float32 : ℚ → ℚ) (x : List (List ℚ))
    (y : Option (List ℤ)) (idx : Nat) :
    (x.length ≤ idx →
      (NurseryDataset.init float32 x y).getitem idx =
        Except.error "Invalid Index") ∧
    (y = none →
      (NurseryDataset.init float32 x y).y = List.replicate x.length 0) ∧
    (∀ h : idx < x.length, y = none →
      (NurseryDataset.init float32 x y).getitem idx =
        Except.ok ((x.get ⟨idx, h⟩).map float32, 0)) ∧
    (∀ ys, y = some ys → ∀ h : idx < x.length, ∀ h2 : idx < ys.length,
      (NurseryDataset.init float32 x y).getitem idx =
        Except.ok ((x.get ⟨idx, h⟩).map float32,
          int8Wrap (ys.get ⟨idx, h2⟩))) := by
  have hx_eq : (NurseryDataset.init float32 x y).x =
      x.map (List.map float32) := rfl
  have hxlen : (x.map (List.map float32)).length = x.length := by
    simp
  refine ⟨fun hout => ?_, fun hnone => ?_, fun h hnone => ?_,
    fun ys hsome h h2 => ?_⟩
  · rw [NurseryDataset.getitem, hx_eq, hxlen, if_pos hout]
  · subst hnone
    rfl
  · subst hnone
    rw [NurseryDataset.getitem, hx_eq, hxlen, if_neg (not_le.mpr h)]
    have hx : (x.map (List.map float32))[idx]? =
        some ((x.get ⟨idx, h⟩).map float32) := by
      rw [List.getElem?_map, List.getElem?_eq_getElem h]
      rfl
    have hy : (NurseryDataset.init float32 x none).y[idx]? = some 0 := by
      have hyeq : (NurseryDataset.init float32 x none).y =
          List.replicate x.length 0 := rfl
      rw [hyeq, List.getElem?_replicate, if_pos h]
    rw [hx, hy]
  · subst hsome
    rw [NurseryDataset.getitem, hx_eq, hxlen, if_neg (not_le.mpr h)]
    have hx : (x.map (List.map float32))[idx]? =
        some ((x.get ⟨idx, h⟩).map float32) := by
      rw [List.getElem?_map, List.getElem?_eq_getElem h]
      rfl
    have hy : (NurseryDataset.init float32 x (some ys)).y[idx]? =
        some (int8Wrap (ys.get ⟨idx, h2⟩)) := by
      have hyeq : (NurseryDataset.init float32 x (some ys)).y =
          ys.map int8Wrap := rfl
      rw [hyeq, List.getElem?_map, List.getElem?_eq_getElem h2]
      rfl
    rw [hx, hy]

/-- Witness for C10 (amended) on a two-row dataset built without labels:
index 5 raises `IndexError`, index 0 returns the first stored row paired with
label 0. -/
theorem nursery_getitem_spec_witness :
    (NurseryDataset.init (fun q : ℚ => q) [[1], [2]] none).getitem 5 =
        Except.error "Invalid Index" ∧
      (NurseryDataset.init (fun q : ℚ => q) [[1], [2]] none).getitem 0 =
        Except.ok ([1], 0) := by
  constructor
  · exact (nursery_getitem_spec (fun q : ℚ => q) [[1], [2]] none 5).1
      (by decide)
  · exact (nursery_getitem_spec (fun q : ℚ => q) [[1], [2]] none 0).2.2.1
      (by decide) rfl

/-- The error taxonomy of the specification (§7) that the label-only attack
can signal. -/
inductive AttackError where
  | NotCalibratedError
  deriving DecidableEq

/-- Modelled from the spec: the Label-Only / Boundary-Distance Attack Strategy
`LabelOnlyDecisionBoundary` (§4.4), implemented in the external library.  Its
calibration state is the distance threshold τ: `none` is the Uncalibrated
state, `some τ` the Calibrated state.  The boundary-distance measurement
itself is the externally-supplied perturbation search (§6) and is abstracted
as a function `measure` from samples to distances. -/
structure LabelOnlyDecisionBoundary where
  distance_threshold_tau : Option ℚ

/-- A freshly instantiated attack: `LabelOnlyDecisionBoundary(art_model)`
starts Uncalibrated, no τ set. -/
def LabelOnlyDecisionBoundary.instantiate : LabelOnlyDecisionBoundary where
  distance_threshold_tau := none

/-- Modelled from the spec: `infer(samples, labels)` of the label-only attack
(§4.4): valid only in the Calibrated state, failing with `NotCalibratedError`
otherwise; measures each sample's boundary distance and predicts "member"
(1) iff distance ≥ τ. -/
def LabelOnlyDecisionBoundary.infer {α : Type} (a : LabelOnlyDecisionBoundary)
    (measure : α → ℚ) (samples : List α) : Except AttackError (List ℚ) :=
  match a.distance_threshold_tau with
  | none => Except.error AttackError.NotCalibratedError
  | some tau => Except.ok
      (samples.map fun s => if tau ≤ measure s then (1 : ℚ) else 0)

/-- Claim C2: in the Calibrated state, `infer` predicts "member" for a sample
if and only if its measured boundary distance is greater than or equal to the
calibrated threshold τ — the comparison at the boundary is `≥`, not a strict
`>`. -/
theorem label_only_infer_member_iff_ge_tau {α : Type}
    (a : LabelOnlyDecisionBoundary) (measure : α → ℚ) (tau : ℚ)
    (hcal : a.distance_threshold_tau = some tau)
    (samples : List α) (preds : List ℚ)
    (hok : a.infer measure samples = Except.ok preds)
    (i : Nat) (hi : i < samples.length) (hip : i < preds.length) :
    preds.get ⟨i, hip⟩ = 1 ↔ measure (samples.get ⟨i, hi⟩) ≥ tau := by
  rw [LabelOnlyDecisionBoundary.infer, hcal] at hok
  have hpreds : preds = samples.map fun s => if tau ≤ measure s then (1 : ℚ)
      else 0 := by
    exact (Except.ok.inj hok).symm
  subst hpreds
  have h1 : (samples.map fun s => if tau ≤ measure s then (1 : ℚ) else 0).get
        ⟨i, hip⟩ =
      if tau ≤ measure (samples.get ⟨i, hi⟩) then (1 : ℚ) else 0 := by
    simp [List.get_eq_getElem, List.getElem_map]
  rw [h1]
  constructor
  · intro h
    by_contra hlt
    rw [if_neg hlt] at h
    norm_num at h
  · intro h
    rw [if_pos h]

/-- Witness for C2: a calibrated instance with τ = 2 on three samples at
distances 1, 2 and 3; the sample sitting exactly on the threshold (distance
2 = τ, sample index 1) is predicted "member". -/
theorem label_only_infer_member_iff_ge_tau_witness :
    ∃ preds : List ℚ,
      (LabelOnlyDecisionBoundary.mk (some 2)).infer (fun d : ℚ => d) [1, 2, 3] =
        Except.ok preds ∧
      ∃ hip : 1 < preds.length,
        (preds.get ⟨1, hip⟩ = 1 ↔ (2 : ℚ) ≥ 2) := by
  refine ⟨[0, 1, 1], rfl, by decide, ?_⟩
  exact label_only_infer_member_iff_ge_tau (LabelOnlyDecisionBoundary.mk
      (some 2))
    (fun d : ℚ => d) 2 rfl [1, 2, 3] [0, 1, 1] rfl 1 (by decide)
    (by decide)

/-- Claim C4: on an instance on which no calibration has succeeded (τ unset),
`infer` fails with `NotCalibratedError`, surfaced to the caller rather than
silently defaulting to a prediction. -/
theorem label_only_infer_uncalibrated_fails {α : Type}
    (a : LabelOnlyDecisionBoundary) (measure : α → ℚ)
    (huncal : a.distance_threshold_tau = none) (samples : List α) :
    a.infer measure samples = Except.error AttackError.NotCalibratedError := by
  rw [LabelOnlyDecisionBoundary.infer, huncal]

/-- Witness for C4: a freshly instantiated attack refuses to infer on a
concrete batch. -/
theorem label_only_infer_uncalibrated_fails_witness :
    LabelOnlyDecisionBoundary.instantiate.infer (fun d : ℚ => d) [1, 2, 3] =
      Except.error AttackError.NotCalibratedError :=
  label_only_infer_uncalibrated_fails LabelOnlyDecisionBoundary.instantiate
    (fun d : ℚ => d) rfl [1, 2, 3]

/-- Insertion of a distance into an ascending list. -/
def insertSorted (x : ℚ) : List ℚ → List ℚ
  | [] => [x]
  | y :: ys => if x ≤ y then x :: y :: ys else y :: insertSorted x ys

/-- Insertion sort of the measured distances (ascending). -/
def sortDistances : List ℚ → List ℚ
  | [] => []
  | x :: xs => insertSorted x (sortDistances xs)

lemma length_insertSorted (x : ℚ) (l : List ℚ) :
    (insertSorted x l).length = l.length + 1 := by
  induction l with
  | nil => rfl
  | cons y ys ih =>
    rw [insertSorted]
    split
    · rfl
    · rw [List.length_cons, ih, List.length_cons]

lemma length_sortDistances (l : List ℚ) :
    (sortDistances l).length = l.length := by
  induction l with
  | nil => rfl
  | cons x xs ih =>
    rw [sortDistances, length_insertSorted, ih, List.length_cons]

/-- Modelled from the spec: "the value at the `top_t`-th percentile of the
distance distribution" (§4.4).  The q-th percentile with linear interpolation
between the two nearest order statistics — the convention of numpy's
`percentile`, which the library's unsupervised calibration invokes: with `s`
the ascending distances and `h = (n − 1)·q/100`, the value is
`s[⌊h⌋] + (h − ⌊h⌋)·(s[⌊h⌋ + 1] − s[⌊h⌋])`. -/
def percentile (l : List ℚ) (q : ℚ) : ℚ :=
  let s := sortDistances l
  let n := s.length
  let h : ℚ := ((n : ℚ) - 1) * q / 100
  let k : Nat := (⌊h⌋).toNat
  let lo := s.getD k 0
  let hi := s.getD (k + 1) lo
  lo + (h - (k : ℚ)) * (hi - lo)

/-- The median of the distances: middle element of the sorted list for odd
length, mean of the two middle elements for even length. -/
def median (l : List ℚ) : ℚ :=
  let s := sortDistances l
  let n := s.length
  if n % 2 = 1 then s.getD (n / 2) 0
  else (s.getD (n / 2 - 1) 0 + s.getD (n / 2) 0) / 2

/-- The 50th percentile with linear interpolation is exactly the median. -/
lemma percentile_fifty_eq_median (l : List ℚ) (hne : l ≠ []) :
    percentile l 50 = median l := by
  have hlen : (sortDistances l).length = l.length := length_sortDistances l
  have hpos : 0 < (sortDistances l).length := by
    rw [hlen]
    exact List.length_pos.mpr hne
  simp only [percentile, median]
  rcases Nat.even_or_odd (sortDistances l).length with he | ho
  · obtain ⟨m, hm⟩ := he
    have hm2 : (sortDistances l).length = 2 * m := by omega
    have hm1 : 1 ≤ m := by omega
    have hfloor : ⌊(((sortDistances l).length : ℚ) - 1) * 50 / 100⌋ =
        (m : ℤ) - 1 := by
      rw [Int.floor_eq_iff, hm2]
      push_cast
      constructor
      · linarith
      · linarith
    have htoNat : (⌊(((sortDistances l).length : ℚ) - 1) * 50 / 100⌋).toNat =
        m - 1 := by
      rw [hfloor]
      omega
    have hkcast : ((m - 1 : ℕ) : ℚ) = (m : ℚ) - 1 := by
      push_cast [hm1]
      ring
    have hk1 : (m - 1) + 1 = m := by omega
    have hmod : ¬ (sortDistances l).length % 2 = 1 := by omega
    have hdiv : (sortDistances l).length / 2 = m := by omega
    have hdiv1 : (sortDistances l).length / 2 - 1 = m - 1 := by omega
    have hhi : (sortDistances l).getD m ((sortDistances l).getD (m - 1) 0) =
        (sortDistances l).getD m 0 := by
      have hmlt : m < (sortDistances l).length := by omega
      rw [List.getD_eq_getElem?_getD (sortDistances l) m
          ((sortDistances l).getD (m - 1) 0),
        List.getD_eq_getElem?_getD (sortDistances l) m 0,
        List.getElem?_eq_getElem hmlt]
      rfl
    rw [htoNat, hk1, hhi, if_neg hmod, hdiv, hkcast, hm2]
    push_cast
    ring
  · obtain ⟨m, hm⟩ := ho
    have hfl : (((sortDistances l).length : ℚ) - 1) * 50 / 100 = (m : ℚ) := by
      rw [hm]
      push_cast
      ring
    have htoNat : (⌊(((sortDistances l).length : ℚ) - 1) * 50 / 100⌋).toNat =
        m := by
      rw [hfl, Int.floor_natCast]
      omega
    have hmod : (sortDistances l).length % 2 = 1 := by omega
    have hdiv : (sortDistances l).length / 2 = m := by omega
    rw [htoNat, hfl, if_pos hmod, hdiv]
    ring

/-- Modelled from the spec: `calibrate_distance_threshold_unsupervised(top_t,
num_samples, max_queries)` (§4.4) "generates synthetic/random samples,
measures their boundary distances, and sets τ to the value at the `top_t`-th
percentile of the distance distribution (without ground-truth membership)".
Sample generation and boundary-distance measurement are the external
collaborators of §6, so the measured distances of the generated samples are
taken as an input; the call leaves the instance Calibrated at that
percentile. -/
def LabelOnlyDecisionBoundary.calibrate_distance_threshold_unsupervised
    (_ : LabelOnlyDecisionBoundary) (top_t : ℚ) (distances : List ℚ) :
    LabelOnlyDecisionBoundary where
  distance_threshold_tau := some (percentile distances top_t)

/-- Claim C5: unsupervised calibration with `top_t = 50` sets the threshold τ
to the median of the boundary-distance distribution measured over the
generated samples (exactly, so in particular within numerical tolerance). -/
theorem calibrate_unsupervised_fifty_sets_median
    (a : LabelOnlyDecisionBoundary) (distances : List ℚ)
    (hne : distances ≠ []) :
    (a.calibrate_distance_threshold_unsupervised 50
        distances).distance_threshold_tau = some (median distances) := by
  show some (percentile distances 50) = some (median distances)
  rw [percentile_fifty_eq_median distances hne]

/-- Witness for C5 on the concrete distance sample `[4, 1, 3, 2]`, whose
median is 5/2. -/
theorem calibrate_unsupervised_fifty_sets_median_witness :
    (LabelOnlyDecisionBoundary.instantiate.calibrate_distance_threshold_unsupervised
        50 [4, 1, 3, 2]).distance_threshold_tau = some (5 / 2) := by
  rw [calibrate_unsupervised_fifty_sets_median
    LabelOnlyDecisionBoundary.instantiate [4, 1, 3, 2] (by decide)]
  norm_num [median, sortDistances, insertSorted, List.getD_cons_zero,
    List.getD_cons_succ]

/-- Modelled from the spec: supervised calibration
`calibrate_distance_threshold(member_samples, member_labels,
nonmember_samples, nonmember_labels)` (§4.4) scans candidate thresholds over
the measured distances of the two known-membership groups and stores the one
maximizing separation accuracy; only the resulting write of τ into the
calibration state matters for the state machine, so the chosen value is
abstracted as `tau`. -/
def LabelOnlyDecisionBoundary.calibrate_distance_threshold
    (_ : LabelOnlyDecisionBoundary) (tau : ℚ) : LabelOnlyDecisionBoundary where
  distance_threshold_tau := some tau

/-- An operation invoked on a label-only attack instance over its lifetime. -/
inductive AttackOp (α : Type) where
  | infer (samples : List α)
  | calibrate (tau : ℚ)
  | calibrateUnsupervised (top_t : ℚ) (distances : List ℚ)

/-- One operation against an instance: `infer` produces membership output and
leaves the instance as is; the calibration calls update τ and produce no
membership output. -/
def runOp {α : Type} (measure : α → ℚ) (a : LabelOnlyDecisionBoundary) :
    AttackOp α →
      LabelOnlyDecisionBoundary × Option (Except AttackError (List ℚ))
  | AttackOp.infer samples => (a, some (a.infer measure samples))
  | AttackOp.calibrate tau => (a.calibrate_distance_threshold tau, none)
  | AttackOp.calibrateUnsupervised top_t distances =>
      (a.calibrate_distance_threshold_unsupervised top_t distances, none)

/-- The instance state after a sequence of operations. -/
def runOps {α : Type} (measure : α → ℚ) (a : LabelOnlyDecisionBoundary) :
    List (AttackOp α) → LabelOnlyDecisionBoundary
  | [] => a
  | op :: ops => runOps measure (runOp measure a op).1 ops

/-- A sequence of pure `infer` calls never changes the instance state. -/
lemma runOps_all_infer {α : Type} (measure : α → ℚ)
    (a : LabelOnlyDecisionBoundary) (ops : List (AttackOp α))
    (h : ∀ op ∈ ops, ∃ samples, op = AttackOp.infer samples) :
    runOps measure a ops = a := by
  induction ops generalizing a with
  | nil => rfl
  | cons op ops ih =>
    obtain ⟨samples, rfl⟩ := h op (List.mem_cons_self op ops)
    exact ih a fun o ho => h o (List.mem_cons_of_mem _ ho)

/-- Claim C7: the threshold τ is written only by a calibration call.  After a
calibration succeeded (τ = some tau), any number of subsequent `infer` calls
leaves τ unchanged; and whenever τ differs after a sequence of operations,
that sequence contained an explicit (re-)calibration, i.e. a non-`infer`
operation. -/
theorem tau_only_written_by_calibration {α : Type} (measure : α → ℚ)
    (a : LabelOnlyDecisionBoundary) (tau : ℚ)
    (hcal : a.distance_threshold_tau = some tau) (ops : List (AttackOp α))
    (hinfer : ∀ op ∈ ops, ∃ samples, op = AttackOp.infer samples) :
    (runOps measure a ops).distance_threshold_tau = some tau ∧
      ∀ ops2 : List (AttackOp α),
        (runOps measure a ops2).distance_threshold_tau ≠
            a.distance_threshold_tau →
          ∃ op ∈ ops2, ∀ samples, op ≠ AttackOp.infer samples := by
  constructor
  · rw [runOps_all_infer measure a ops hinfer, hcal]
  · intro ops2 hne
    by_contra hcon
    push_neg at hcon
    apply hne
    have hall : ∀ op ∈ ops2, ∃ samples, op = AttackOp.infer samples := by
      intro op hop
      have h2 := hcon op hop
      push_neg at h2
      exact h2
    rw [runOps_all_infer measure a ops2 hall]

/-- Witness for C7: an instance calibrated at τ = 3 still has τ = 3 after two
concrete `infer` calls. -/
theorem tau_only_written_by_calibration_witness :
    (runOps (fun d : ℚ => d) (LabelOnlyDecisionBoundary.mk (some 3))
        [AttackOp.infer [1], AttackOp.infer [2]]).distance_threshold_tau =
      some 3 :=
  (tau_only_written_by_calibration (fun d : ℚ => d)
    (LabelOnlyDecisionBoundary.mk (some 3)) 3 rfl
    [AttackOp.infer [1], AttackOp.infer [2]]
    (by
      intro op hop
      rcases List.mem_cons.mp hop with rfl | hop2
      · exact ⟨[1], rfl⟩
      · rcases List.mem_cons.mp hop2 with rfl | hop3
        · exact ⟨[2], rfl⟩
        · exact absurd hop3 (List.not_mem_nil op))).1

end MembershipInference
